import Mathlib

/-!
Shallow embedding of the QuickApoint backend (`src/server.js`), an Express
server over MongoDB. The parts relevant to the claims are:

* the Mongoose collections `TokenCounter` (`{ doctorId, count }`) and
  `Appointment` (`{ userId, doctorId, doctorName, specialization,
  scheduledAt, status, token, createdAt, notes }`), modelled as lists of
  records inside a `ServerState`;
* `POST /api/join-queue` (lines 229-260): reads the doctor's counter with
  `findOne`, creates it with `count: 0` when absent, does `count += 1`,
  `save()`s it, then builds and `save()`s a `"waiting"` appointment whose
  `token` is the saved count, answering `{ token, appointment }`; the whole
  body sits in a `try`/`catch` that answers 500 `"Failed to join queue"`
  when any `await` throws.  The two fallible writes are modelled by two
  explicit success flags;
* `GET /api/queue/:doctorId` (lines 276-287): `find({doctorId,
  status:"waiting"}).sort({token:1, createdAt:1})`;
* `POST /api/appointments/:id/cancel` (lines 195-206):
  `findByIdAndUpdate(id, { status: "cancelled" })`.

Dates (`Date.now()`, `new Date()`) are modelled as natural-number
timestamps; the Mongo `_id` of an appointment is modelled by the document's
position in the collection list (nothing in the modelled routes deletes or
reorders appointments, so positions are stable ids).  The stray `id:
Date.now()` field passed to the `Appointment` constructor in the join
handler is not part of `AppointmentSchema` and is discarded by Mongoose, so
it does not appear in the model.
-/

/-- One `TokenCounter` document: `{ doctorId: String, count: Number }`. -/
structure TokenCounterRec where
  doctorId : String
  count : Nat
deriving Repr, DecidableEq

/-- One `Appointment` document, with the fields of `AppointmentSchema`. -/
structure AppointmentRec where
  userId : String
  doctorId : String
  doctorName : String
  specialization : String
  scheduledAt : Nat
  status : String
  token : Nat
  createdAt : Nat
  notes : String
deriving Repr, DecidableEq

/-- The persistent store: the two collections the claims touch. -/
structure ServerState where
  counters : List TokenCounterRec
  appointments : List AppointmentRec
deriving Repr, DecidableEq

/-- The store of a fresh deployment: both collections empty. -/
def initialState : ServerState := ⟨[], []⟩

/-- `TokenCounter.findOne({ doctorId })`: first counter document whose
`doctorId` matches. -/
def findCounter (cs : List TokenCounterRec) (d : String) : Option TokenCounterRec :=
  cs.find? (fun c => c.doctorId == d)

/-- `counter.save()` for the join handler's counter document: overwrite the
first document for this doctor with the new count, or insert the new
document when the doctor had none. -/
def setCounter : List TokenCounterRec → String → Nat → List TokenCounterRec
  | [], d, n => [⟨d, n⟩]
  | c :: cs, d, n => if c.doctorId == d then ⟨d, n⟩ :: cs else c :: setCounter cs d n

/-- The count stored for a doctor in a counter collection, 0 when no
counter document exists (the handler creates absent counters with
`count: 0`). -/
def countOf (cs : List TokenCounterRec) (d : String) : Nat :=
  match findCounter cs d with
  | some c => c.count
  | none => 0

/-- The count currently stored for a doctor in the server state. -/
def counterValue (st : ServerState) (d : String) : Nat :=
  countOf st.counters d

/-- Outcome of the join-queue route: `res.json({ token, appointment })`
(HTTP 200) or the catch-all `res.status(500).json({ message })`. -/
inductive JoinResult where
  | ok (token : Nat) (appointment : AppointmentRec)
  | serverError (message : String)
deriving Repr, DecidableEq

/-- The appointment document built by the join handler (lines 241-252):
`doctorName` is the caller's `displayName`, `specialization` is `""`,
`status` is `"waiting"`, `scheduledAt` and `createdAt` are the current
time, and `notes` is the template string `Walk-in: ${displayName}`. -/
def mkWalkInAppointment (doctorId userId displayName : String) (now : Nat)
    (token : Nat) : AppointmentRec :=
  { userId := userId
    doctorId := doctorId
    doctorName := displayName
    specialization := ""
    scheduledAt := now
    status := "waiting"
    token := token
    createdAt := now
    notes := "Walk-in: " ++ displayName }

/-- `POST /api/join-queue` (lines 229-260).  `counterSaveOk` and
`apptSaveOk` say whether the two `save()` calls succeed; a failed save
throws, leaving its own write unapplied, and the `catch` answers 500
`"Failed to join queue"`.  Note the handler performs no validation of the
request body. -/
def joinQueue (st : ServerState) (doctorId userId displayName : String)
    (now : Nat) (counterSaveOk apptSaveOk : Bool) : JoinResult × ServerState :=
  let prev := counterValue st doctorId
  let newCount := prev + 1
  if counterSaveOk then
    let st1 : ServerState := { st with counters := setCounter st.counters doctorId newCount }
    let token := newCount
    let appt := mkWalkInAppointment doctorId userId displayName now token
    if apptSaveOk then
      (JoinResult.ok token appt, { st1 with appointments := st1.appointments ++ [appt] })
    else
      (JoinResult.serverError "Failed to join queue", st1)
  else
    (JoinResult.serverError "Failed to join queue", st)

/-- The Mongo sort key `{ token: 1, createdAt: 1 }` as a Boolean order:
ascending token, ties broken by ascending creation timestamp. -/
def queueLE (a b : AppointmentRec) : Bool :=
  Nat.blt a.token b.token || (a.token == b.token && Nat.ble a.createdAt b.createdAt)

/-- `GET /api/queue/:doctorId` (lines 276-287): the `"waiting"`
appointments of the doctor, sorted by `{ token: 1, createdAt: 1 }`. -/
def getQueue (st : ServerState) (d : String) : List AppointmentRec :=
  (st.appointments.filter (fun a => a.doctorId == d && a.status == "waiting")).mergeSort queueLE

/-- `Appointment.findByIdAndUpdate(id, { status: "cancelled" })` on the
collection list: set the `status` of the document at position `i` to
`"cancelled"`, leaving everything else alone; out-of-range ids match no
document and change nothing. -/
def cancelAt : List AppointmentRec → Nat → List AppointmentRec
  | [], _ => []
  | a :: as, 0 => { a with status := "cancelled" } :: as
  | a :: as, n + 1 => a :: cancelAt as n

/-- `POST /api/appointments/:id/cancel` (lines 195-206). -/
def cancelAppointment (st : ServerState) (i : Nat) : ServerState :=
  { st with appointments := cancelAt st.appointments i }

/-- The state-changing operations of the modelled routes, for statements
about arbitrary operation sequences. -/
inductive Op where
  | join (doctorId userId displayName : String) (now : Nat)
      (counterSaveOk apptSaveOk : Bool)
  | cancel (i : Nat)
deriving Repr, DecidableEq

/-- Effect of one operation on the store. -/
def applyOp (st : ServerState) : Op → ServerState
  | Op.join d u dn now cOk aOk => (joinQueue st d u dn now cOk aOk).2
  | Op.cancel i => cancelAppointment st i

/-- Run a sequence of operations from the fresh deployment. -/
def runOps (ops : List Op) : ServerState := ops.foldl applyOp initialState

/-- Tokens of a doctor's appointment documents in a collection, in
creation order. -/
def tokensOf (l : List AppointmentRec) (d : String) : List Nat :=
  (l.filter (fun a => a.doctorId == d)).map (fun a => a.token)

/-- Tokens of a doctor's appointment documents, in creation order. -/
def doctorTokens (st : ServerState) (d : String) : List Nat :=
  tokensOf st.appointments d

/-!
Interleaving model of concurrent `joinQueue` calls for one fixed doctor.
Per spec §5 a call suspends at each `await`: reading the counter, saving
the counter, and saving the appointment.  Each concurrent call is a thread
stepping through those three atomic actions against the shared store; a
schedule is the sequence of thread indices picked at each step.
-/

/-- The shared store seen by concurrent joins for one doctor: the stored
count (0 when the counter document is absent) and the tokens of the queue
entries persisted so far, in write order. -/
structure SharedState where
  counter : Nat
  entries : List Nat
deriving Repr, DecidableEq

/-- Where one in-flight `joinQueue` call stands between its awaits. -/
inductive ThreadState where
  | ready
  | readCounter (c : Nat)
  | wroteCounter (t : Nat)
  | done (t : Nat)
deriving Repr, DecidableEq

/-- One atomic action of a call: `findOne` reads the stored count,
`counter.save()` writes back the read value plus one (the issued token),
`appt.save()` appends an entry carrying that token.  A finished call does
nothing. -/
def stepThread (sh : SharedState) : ThreadState → SharedState × ThreadState
  | ThreadState.ready => (sh, ThreadState.readCounter sh.counter)
  | ThreadState.readCounter c => ({ sh with counter := c + 1 }, ThreadState.wroteCounter (c + 1))
  | ThreadState.wroteCounter t => ({ sh with entries := sh.entries ++ [t] }, ThreadState.done t)
  | ThreadState.done t => (sh, ThreadState.done t)

/-- A whole system of concurrent joins: the shared store plus each call's
progress. -/
structure SystemState where
  shared : SharedState
  threads : List ThreadState
deriving Repr, DecidableEq

/-- Let thread `i` take its next atomic action. -/
def stepSys (sys : SystemState) (i : Nat) : SystemState :=
  match sys.threads[i]? with
  | none => sys
  | some ts =>
    let p := stepThread sys.shared ts
    ⟨p.1, sys.threads.set i p.2⟩

/-- Run a schedule (sequence of thread choices). -/
def runSchedule (sys : SystemState) : List Nat → SystemState
  | [] => sys
  | i :: rest => runSchedule (stepSys sys i) rest

/-- A system of `n` fresh concurrent joins for a doctor whose stored count
is `c`. -/
def freshSystem (c : Nat) (n : Nat) : SystemState :=
  ⟨⟨c, []⟩, List.replicate n ThreadState.ready⟩

/-!  Lemmas about the counter collection. -/

/-- `findOne` on the empty collection. -/
theorem findCounter_nil (d : String) : findCounter [] d = none := rfl

/-- `findOne` on a non-empty collection checks the head first. -/
theorem findCounter_cons (c : TokenCounterRec) (cs : List TokenCounterRec) (d : String) :
    findCounter (c :: cs) d = if c.doctorId == d then some c else findCounter cs d := by
  by_cases h : (c.doctorId == d) = true <;>
    simp [findCounter, List.find?_cons_of_pos, List.find?_cons_of_neg, h]

/-- After saving count `n` for doctor `d`, `findOne` for `d` returns the
saved document. -/
theorem findCounter_setCounter_self (cs : List TokenCounterRec) (d : String) (n : Nat) :
    findCounter (setCounter cs d n) d = some ⟨d, n⟩ := by
  induction cs with
  | nil => simp [setCounter, findCounter_cons, findCounter_nil]
  | cons c cs ih =>
    by_cases h : (c.doctorId == d) = true
    · simp [setCounter, h, findCounter_cons]
    · simp [setCounter, h, findCounter_cons, ih]

/-- Saving a count for doctor `d` does not change what `findOne` returns
for any other doctor. -/
theorem findCounter_setCounter_ne (cs : List TokenCounterRec) (d d' : String) (n : Nat)
    (h : d' ≠ d) :
    findCounter (setCounter cs d n) d' = findCounter cs d' := by
  induction cs with
  | nil => simp [setCounter, findCounter_cons, findCounter_nil, beq_iff_eq, Ne.symm h]
  | cons c cs ih =>
    by_cases hc : (c.doctorId == d) = true
    · have hcd : c.doctorId = d := eq_of_beq hc
      simp [setCounter, hc, findCounter_cons, hcd, beq_iff_eq, Ne.symm h]
    · simp [setCounter, hc, findCounter_cons, ih]

/-- The stored count after saving count `n` for doctor `d` is `n`. -/
theorem countOf_setCounter_self (cs : List TokenCounterRec) (d : String) (n : Nat) :
    countOf (setCounter cs d n) d = n := by
  simp [countOf, findCounter_setCounter_self]

/-- Saving a count for doctor `d` leaves every other doctor's stored count
unchanged. -/
theorem countOf_setCounter_ne (cs : List TokenCounterRec) (d d' : String) (n : Nat)
    (h : d' ≠ d) :
    countOf (setCounter cs d n) d' = countOf cs d' := by
  simp [countOf, findCounter_setCounter_ne cs d d' n h]

/-!  Lemmas about token lists and cancellation. -/

/-- Token list of a collection starting with document `a`. -/
theorem tokensOf_cons (a : AppointmentRec) (l : List AppointmentRec) (d : String) :
    tokensOf (a :: l) d
      = if a.doctorId == d then a.token :: tokensOf l d else tokensOf l d := by
  by_cases h : (a.doctorId == d) = true <;> simp [tokensOf, List.filter_cons, h]

/-- Token lists distribute over appending documents. -/
theorem tokensOf_append (l l' : List AppointmentRec) (d : String) :
    tokensOf (l ++ l') d = tokensOf l d ++ tokensOf l' d := by
  simp [tokensOf, List.filter_append]

/-- Token list contributed by one freshly built walk-in appointment. -/
theorem tokensOf_walkIn (d0 u dn : String) (now t : Nat) (d : String) :
    tokensOf [mkWalkInAppointment d0 u dn now t] d = if d0 = d then [t] else [] := by
  by_cases h : d0 = d <;> simp [tokensOf, mkWalkInAppointment, h]

/-- Cancelling a document changes no doctor's token list: only `status` is
touched. -/
theorem tokensOf_cancelAt (l : List AppointmentRec) (i : Nat) (d : String) :
    tokensOf (cancelAt l i) d = tokensOf l d := by
  induction l generalizing i with
  | nil => rfl
  | cons a as ih =>
    cases i with
    | zero => simp [cancelAt, tokensOf_cons]
    | succ n => simp [cancelAt, tokensOf_cons, ih]

/-- The document at the cancelled position gets exactly its `status`
replaced by `"cancelled"`. -/
theorem cancelAt_getElem_self (l : List AppointmentRec) (i : Nat) (a : AppointmentRec)
    (h : l[i]? = some a) :
    (cancelAt l i)[i]? = some { a with status := "cancelled" } := by
  induction l generalizing i with
  | nil => simp at h
  | cons x xs ih =>
    cases i with
    | zero =>
      simp at h
      subst h
      simp [cancelAt]
    | succ n =>
      simp at h
      simpa [cancelAt] using ih n h

/-- Every document other than the cancelled one is unchanged. -/
theorem cancelAt_getElem_ne (l : List AppointmentRec) (i j : Nat) (h : j ≠ i) :
    (cancelAt l i)[j]? = l[j]? := by
  induction l generalizing i j with
  | nil => rfl
  | cons x xs ih =>
    cases i with
    | zero =>
      cases j with
      | zero => exact absurd rfl h
      | succ m => simp [cancelAt]
    | succ n =>
      cases j with
      | zero => simp [cancelAt]
      | succ m =>
        simp only [cancelAt, List.getElem?_cons_succ]
        exact ih n m (fun hh => h (by rw [hh]))

/-- Claim C1 fails on the code: under the
interleaving of two concurrent joins for the same fresh doctor where both
calls read the counter before either saves (schedule `[0,1,0,0,1,1]`),
both calls finish holding token 1 and the persisted entries carry tokens
`[1, 1]` — a duplicate, with token 2 never issued — whereas the serialized
schedule `[0,0,0,1,1,1]` issues tokens `[1, 2]` as the claim demands for
every interleaving. -/
theorem concurrent_joins_duplicate_token :
    (runSchedule (freshSystem 0 2) [0, 1, 0, 0, 1, 1]).threads
        = [ThreadState.done 1, ThreadState.done 1]
    ∧ (runSchedule (freshSystem 0 2) [0, 1, 0, 0, 1, 1]).shared.entries = [1, 1]
    ∧ (runSchedule (freshSystem 0 2) [0, 0, 0, 1, 1, 1]).threads
        = [ThreadState.done 1, ThreadState.done 2]
    ∧ (runSchedule (freshSystem 0 2) [0, 0, 0, 1, 1, 1]).shared.entries = [1, 2] := by
  decide

/-- Claim C2 holds in its first half and fails in its second on the
code: when the appointment save fails after the counter save
succeeded, the route does answer 500 with the generic message and no
token, but it leaves the doctor's counter incremented to 1 with no
persisted queue entry at all; when the counter save itself fails the
store is untouched. -/
theorem joinQueue_partial_failure_leaves_counter :
    (joinQueue initialState "D1" "U1" "Alice" 100 true false).1
        = JoinResult.serverError "Failed to join queue"
    ∧ counterValue (joinQueue initialState "D1" "U1" "Alice" 100 true false).2 "D1" = 1
    ∧ (joinQueue initialState "D1" "U1" "Alice" 100 true false).2.appointments = []
    ∧ (joinQueue initialState "D1" "U1" "Alice" 100 false false).1
        = JoinResult.serverError "Failed to join queue"
    ∧ (joinQueue initialState "D1" "U1" "Alice" 100 false false).2 = initialState := by
  decide

/-- Claim C3: a join for a doctor with no existing counter document
initializes the count at 0 and issues token 1, and the doctor's stored
count afterwards is 1 — for any prior state of the other doctors'
counters and appointments. -/
theorem joinQueue_new_doctor (st : ServerState) (d u dn : String) (now : Nat)
    (h : findCounter st.counters d = none) :
    (joinQueue st d u dn now true true).1
        = JoinResult.ok 1 (mkWalkInAppointment d u dn now 1)
    ∧ counterValue (joinQueue st d u dn now true true).2 d = 1 := by
  have hc : countOf st.counters d = 0 := by simp [countOf, h]
  constructor
  · simp [joinQueue, counterValue, hc]
  · simp [joinQueue, counterValue, hc, countOf_setCounter_self]

/-- Witness for C3: in a store that already holds a counter at 5 for
doctor D1, a join for the never-seen doctor D2 returns token 1 and leaves
D2's count at 1, independent of D1's running count. -/
theorem joinQueue_new_doctor_witness :
    (joinQueue ⟨[⟨"D1", 5⟩], []⟩ "D2" "U2" "Bob" 7 true true).1
        = JoinResult.ok 1 (mkWalkInAppointment "D2" "U2" "Bob" 7 1)
    ∧ counterValue (joinQueue ⟨[⟨"D1", 5⟩], []⟩ "D2" "U2" "Bob" 7 true true).2 "D2" = 1 :=
  joinQueue_new_doctor ⟨[⟨"D1", 5⟩], []⟩ "D2" "U2" "Bob" 7 (by decide)

/-- Claim C6: a successful join answers 200 with `{ token, appointment }`
where the token is the post-increment counter value, and the persisted
appointment has status `"waiting"`, both timestamps set to the current
time, and that same token attached; the appointment is appended to the
store. -/
theorem joinQueue_success_response (st : ServerState) (d u dn : String) (now : Nat) :
    (joinQueue st d u dn now true true).1
        = JoinResult.ok (counterValue st d + 1)
            (mkWalkInAppointment d u dn now (counterValue st d + 1))
    ∧ (mkWalkInAppointment d u dn now (counterValue st d + 1)).status = "waiting"
    ∧ (mkWalkInAppointment d u dn now (counterValue st d + 1)).scheduledAt = now
    ∧ (mkWalkInAppointment d u dn now (counterValue st d + 1)).createdAt = now
    ∧ (mkWalkInAppointment d u dn now (counterValue st d + 1)).token = counterValue st d + 1
    ∧ counterValue (joinQueue st d u dn now true true).2 d = counterValue st d + 1
    ∧ (joinQueue st d u dn now true true).2.appointments
        = st.appointments ++ [mkWalkInAppointment d u dn now (counterValue st d + 1)] := by
  refine ⟨by simp [joinQueue], rfl, rfl, rfl, rfl, ?_, by simp [joinQueue]⟩
  simp [joinQueue, counterValue, countOf_setCounter_self]

/-- Counterexample for C7: with every body field the empty string, the
join is not rejected as a client error — it succeeds with token 1,
increments the counter stored under the empty doctor id, and creates a
queue entry. -/
theorem joinQueue_no_validation_cex :
    (joinQueue initialState "" "" "" 0 true true).1
        = JoinResult.ok 1 (mkWalkInAppointment "" "" "" 0 1)
    ∧ counterValue (joinQueue initialState "" "" "" 0 true true).2 "" = 1
    ∧ (joinQueue initialState "" "" "" 0 true true).2.appointments
        = [mkWalkInAppointment "" "" "" 0 1] := by
  decide

/-- Claim C7 as amended: the handler performs no validation of `doctorId`
or `userId`; a request whose identifiers are empty is processed like any
other join, incrementing the counter stored under that identifier value
and appending a queue entry. -/
theorem joinQueue_empty_ids_processed (st : ServerState) (now : Nat) :
    (joinQueue st "" "" "" now true true).1
        = JoinResult.ok (counterValue st "" + 1)
            (mkWalkInAppointment "" "" "" now (counterValue st "" + 1))
    ∧ counterValue (joinQueue st "" "" "" now true true).2 "" = counterValue st "" + 1
    ∧ (joinQueue st "" "" "" now true true).2.appointments
        = st.appointments ++ [mkWalkInAppointment "" "" "" now (counterValue st "" + 1)] := by
  refine ⟨by simp [joinQueue], ?_, by simp [joinQueue]⟩
  simp [joinQueue, counterValue, countOf_setCounter_self]

/-- Claim C9: the appointment created by a successful join stores the
caller-supplied display name in the `doctorName` field, the empty string
in `specialization`, and `"Walk-in: "` concatenated with the display name
in `notes`. -/
theorem joinQueue_entry_display_fields (st : ServerState) (d u dn : String) (now : Nat) :
    (joinQueue st d u dn now true true).1
        = JoinResult.ok (counterValue st d + 1)
            (mkWalkInAppointment d u dn now (counterValue st d + 1))
    ∧ (mkWalkInAppointment d u dn now (counterValue st d + 1)).doctorName = dn
    ∧ (mkWalkInAppointment d u dn now (counterValue st d + 1)).specialization = ""
    ∧ (mkWalkInAppointment d u dn now (counterValue st d + 1)).notes = "Walk-in: " ++ dn := by
  exact ⟨by simp [joinQueue], rfl, rfl, rfl⟩

/-- Claim C8: a join for doctor A leaves doctor B's counter document, B's
stored count, and B's appointment documents unchanged, whatever the
outcome of the two saves. -/
theorem joinQueue_other_doctor_unchanged (st : ServerState) (dA dB u dn : String)
    (now : Nat) (cOk aOk : Bool) (h : dA ≠ dB) :
    findCounter (joinQueue st dA u dn now cOk aOk).2.counters dB = findCounter st.counters dB
    ∧ counterValue (joinQueue st dA u dn now cOk aOk).2 dB = counterValue st dB
    ∧ (joinQueue st dA u dn now cOk aOk).2.appointments.filter (fun a => a.doctorId == dB)
        = st.appointments.filter (fun a => a.doctorId == dB) := by
  have hfc : ∀ n, findCounter (setCounter st.counters dA n) dB = findCounter st.counters dB :=
    fun n => findCounter_setCounter_ne st.counters dA dB n (Ne.symm h)
  have hco : ∀ n, countOf (setCounter st.counters dA n) dB = countOf st.counters dB :=
    fun n => countOf_setCounter_ne st.counters dA dB n (Ne.symm h)
  cases cOk with
  | false => simp [joinQueue]
  | true =>
    cases aOk with
    | false => exact ⟨by simp [joinQueue, hfc], by simp [joinQueue, counterValue, hco], by simp [joinQueue]⟩
    | true =>
      refine ⟨by simp [joinQueue, hfc], by simp [joinQueue, counterValue, hco], ?_⟩
      simp [joinQueue, List.filter_append, List.filter_cons, mkWalkInAppointment, beq_iff_eq, h]

/-- Witness for C8: a join for doctor D1 leaves doctor D2's stored count
at its previous value 3. -/
theorem joinQueue_other_doctor_unchanged_witness :
    counterValue (joinQueue ⟨[⟨"D2", 3⟩], []⟩ "D1" "U1" "A" 0 true true).2 "D2"
        = counterValue ⟨[⟨"D2", 3⟩], []⟩ "D2" :=
  (joinQueue_other_doctor_unchanged ⟨[⟨"D2", 3⟩], []⟩ "D1" "D2" "U1" "A" 0 true true
    (by decide)).2.1

/-- Claim C10: cancelling the appointment at position `i` replaces only its
`status` field by `"cancelled"`, keeps each of its other fields equal to
their previous values, leaves every other appointment document unchanged,
and leaves the counter collection unchanged. -/
theorem cancel_sets_only_status (st : ServerState) (i : Nat) (a : AppointmentRec)
    (h : st.appointments[i]? = some a) :
    (cancelAppointment st i).appointments[i]? = some { a with status := "cancelled" }
    ∧ ({ a with status := "cancelled" } : AppointmentRec).status = "cancelled"
    ∧ ({ a with status := "cancelled" } : AppointmentRec).userId = a.userId
    ∧ ({ a with status := "cancelled" } : AppointmentRec).doctorId = a.doctorId
    ∧ ({ a with status := "cancelled" } : AppointmentRec).doctorName = a.doctorName
    ∧ ({ a with status := "cancelled" } : AppointmentRec).specialization = a.specialization
    ∧ ({ a with status := "cancelled" } : AppointmentRec).scheduledAt = a.scheduledAt
    ∧ ({ a with status := "cancelled" } : AppointmentRec).token = a.token
    ∧ ({ a with status := "cancelled" } : AppointmentRec).createdAt = a.createdAt
    ∧ ({ a with status := "cancelled" } : AppointmentRec).notes = a.notes
    ∧ (∀ j, j ≠ i → (cancelAppointment st i).appointments[j]? = st.appointments[j]?)
    ∧ (cancelAppointment st i).counters = st.counters :=
  ⟨cancelAt_getElem_self st.appointments i a h, rfl, rfl, rfl, rfl, rfl, rfl, rfl, rfl, rfl,
    fun j hj => cancelAt_getElem_ne st.appointments i j hj, rfl⟩

/-- A concrete store with two walk-in appointments, used as witness data. -/
def sampleState : ServerState :=
  ⟨[⟨"D1", 2⟩],
   [mkWalkInAppointment "D1" "U1" "Alice" 10 1, mkWalkInAppointment "D1" "U2" "Bob" 11 2]⟩

/-- Witness for C10: cancelling the first appointment of the sample store
yields that appointment with only its status replaced. -/
theorem cancel_sets_only_status_witness :
    (cancelAppointment sampleState 0).appointments[0]?
        = some { mkWalkInAppointment "D1" "U1" "Alice" 10 1 with status := "cancelled" } :=
  (cancel_sets_only_status sampleState 0 (mkWalkInAppointment "D1" "U1" "Alice" 10 1)
    (by decide)).1

/-- The Boolean sort key, read as a proposition. -/
theorem queueLE_iff (a b : AppointmentRec) :
    queueLE a b = true
      ↔ (a.token < b.token ∨ (a.token = b.token ∧ a.createdAt ≤ b.createdAt)) := by
  simp [queueLE, Nat.blt_eq, Nat.ble_eq, beq_iff_eq]

/-- The sort key is transitive. -/
theorem queueLE_trans (a b c : AppointmentRec) (h1 : queueLE a b = true)
    (h2 : queueLE b c = true) : queueLE a c = true := by
  rw [queueLE_iff] at h1 h2 ⊢
  omega

/-- The sort key is total. -/
theorem queueLE_total (a b : AppointmentRec) : (queueLE a b || queueLE b a) = true := by
  rw [Bool.or_eq_true, queueLE_iff, queueLE_iff]
  omega

/-- Claim C5: the queue endpoint returns exactly the doctor's `"waiting"`
appointments — membership holds iff the document is on file for that
doctor with status `"waiting"`, and the returned list is a permutation of
that sub-collection — sorted by ascending token with ties broken by
ascending creation timestamp. -/
theorem getQueue_waiting_sorted (st : ServerState) (d : String) :
    (∀ a, a ∈ getQueue st d ↔ (a ∈ st.appointments ∧ a.doctorId = d ∧ a.status = "waiting"))
    ∧ List.Perm (getQueue st d)
        (st.appointments.filter (fun a => a.doctorId == d && a.status == "waiting"))
    ∧ List.Pairwise
        (fun a b => a.token < b.token ∨ (a.token = b.token ∧ a.createdAt ≤ b.createdAt))
        (getQueue st d) := by
  have hperm := List.mergeSort_perm
      (st.appointments.filter (fun a => a.doctorId == d && a.status == "waiting")) queueLE
  refine ⟨?_, hperm, ?_⟩
  · intro a
    rw [getQueue, hperm.mem_iff, List.mem_filter]
    simp [beq_iff_eq, and_assoc]
  · have hs := List.sorted_mergeSort queueLE_trans queueLE_total
      (st.appointments.filter (fun a => a.doctorId == d && a.status == "waiting"))
    exact hs.imp (fun hab => (queueLE_iff _ _).1 hab)

/-- Store after a join whose counter save succeeds but whose appointment
save fails: counter incremented, appointments untouched. -/
theorem joinQueue_state_counter_only (st : ServerState) (d0 u dn : String) (now : Nat) :
    (joinQueue st d0 u dn now true false).2
      = ⟨setCounter st.counters d0 (countOf st.counters d0 + 1), st.appointments⟩ := rfl

/-- Store after a fully successful join: counter incremented and the new
walk-in appointment appended. -/
theorem joinQueue_state_success (st : ServerState) (d0 u dn : String) (now : Nat) :
    (joinQueue st d0 u dn now true true).2
      = ⟨setCounter st.counters d0 (countOf st.counters d0 + 1),
         st.appointments ++ [mkWalkInAppointment d0 u dn now (countOf st.counters d0 + 1)]⟩ := rfl

/-- One operation never lowers any doctor's stored count. -/
theorem counterValue_applyOp_mono (st : ServerState) (op : Op) (d : String) :
    counterValue st d ≤ counterValue (applyOp st op) d := by
  cases op with
  | cancel i => simp [applyOp, cancelAppointment, counterValue]
  | join d0 u dn now cOk aOk =>
    cases cOk with
    | false =>
      cases aOk <;> simp [applyOp, joinQueue]
    | true =>
      have hstep : ∀ asep : ServerState, asep.counters = setCounter st.counters d0 (countOf st.counters d0 + 1) →
          counterValue st d ≤ counterValue asep d := by
        intro asep hc
        by_cases hd : d = d0
        · subst hd
          simp [counterValue, hc, countOf_setCounter_self]
        · simp [counterValue, hc, countOf_setCounter_ne st.counters d0 d _ hd]
      cases aOk with
      | false => exact hstep _ (by simp only [applyOp]; rw [joinQueue_state_counter_only])
      | true => exact hstep _ (by simp only [applyOp]; rw [joinQueue_state_success])

/-- A join that answers 200 increments the doctor's stored count by
exactly 1. -/
theorem counterValue_join_ok (st : ServerState) (d u dn : String) (now : Nat)
    (cOk aOk : Bool) (t : Nat) (ap : AppointmentRec)
    (h : (joinQueue st d u dn now cOk aOk).1 = JoinResult.ok t ap) :
    counterValue (joinQueue st d u dn now cOk aOk).2 d = counterValue st d + 1 := by
  cases cOk with
  | false => simp [joinQueue] at h
  | true =>
    cases aOk with
    | false => simp [joinQueue] at h
    | true =>
      rw [joinQueue_state_success]
      simp [counterValue, countOf_setCounter_self]

/-- Reachable-store invariant behind claim C4: every token on file for a
doctor is bounded by that doctor's stored count, and each doctor's token
list is strictly increasing in creation order. -/
def TokensInv (st : ServerState) : Prop :=
  ∀ d, (∀ t ∈ doctorTokens st d, t ≤ counterValue st d)
    ∧ List.Pairwise (fun x y => x < y) (doctorTokens st d)

/-- The fresh deployment satisfies the invariant. -/
theorem tokensInv_initial : TokensInv initialState := by
  intro d
  constructor
  · intro t ht
    simp [doctorTokens, tokensOf, initialState] at ht
  · simp [doctorTokens, tokensOf, initialState]

/-- Every operation preserves the invariant. -/
theorem tokensInv_applyOp (st : ServerState) (op : Op) (h : TokensInv st) :
    TokensInv (applyOp st op) := by
  cases op with
  | cancel i =>
    intro d
    have hd := h d
    simpa [applyOp, cancelAppointment, doctorTokens, counterValue, tokensOf_cancelAt] using hd
  | join d0 u dn now cOk aOk =>
    cases cOk with
    | false =>
      cases aOk <;> simpa [applyOp, joinQueue] using h
    | true =>
      cases aOk with
      | false =>
        intro d
        obtain ⟨hb, hp⟩ := h d
        simp only [applyOp]
        rw [joinQueue_state_counter_only]
        by_cases hd : d = d0
        · subst hd
          refine ⟨?_, hp⟩
          intro t ht
          have := hb t ht
          simp only [counterValue, countOf_setCounter_self] at *
          omega
        · constructor
          · intro t ht
            have := hb t ht
            simpa [counterValue, countOf_setCounter_ne st.counters d0 d _ hd] using this
          · exact hp
      | true =>
        intro d
        obtain ⟨hb, hp⟩ := h d
        simp only [applyOp]
        rw [joinQueue_state_success]
        by_cases hd : d = d0
        · subst hd
          have htok : doctorTokens
              ⟨setCounter st.counters d (countOf st.counters d + 1),
               st.appointments ++ [mkWalkInAppointment d u dn now (countOf st.counters d + 1)]⟩ d
              = doctorTokens st d ++ [countOf st.counters d + 1] := by
            simp [doctorTokens, tokensOf_append, tokensOf_walkIn]
          have hcv : counterValue
              ⟨setCounter st.counters d (countOf st.counters d + 1),
               st.appointments ++ [mkWalkInAppointment d u dn now (countOf st.counters d + 1)]⟩ d
              = countOf st.counters d + 1 := by
            simp [counterValue, countOf_setCounter_self]
          rw [htok, hcv]
          constructor
          · intro t ht
            rcases List.mem_append.1 ht with hin | hin
            · have := hb t hin
              simp only [counterValue] at this
              omega
            · simp at hin
              omega
          · rw [List.pairwise_append]
            refine ⟨hp, List.pairwise_singleton _ _, ?_⟩
            intro t hin t' hin'
            simp at hin'
            have := hb t hin
            simp only [counterValue] at this
            omega
        · have htok : doctorTokens
              ⟨setCounter st.counters d0 (countOf st.counters d0 + 1),
               st.appointments ++ [mkWalkInAppointment d0 u dn now (countOf st.counters d0 + 1)]⟩ d
              = doctorTokens st d := by
            simp [doctorTokens, tokensOf_append, tokensOf_walkIn, Ne.symm hd]
          have hcv : counterValue
              ⟨setCounter st.counters d0 (countOf st.counters d0 + 1),
               st.appointments ++ [mkWalkInAppointment d0 u dn now (countOf st.counters d0 + 1)]⟩ d
              = counterValue st d := by
            simp [counterValue, countOf_setCounter_ne st.counters d0 d _ hd]
          rw [htok, hcv]
          exact ⟨hb, hp⟩

/-- Every store reachable by a sequence of operations satisfies the
invariant. -/
theorem tokensInv_runOps (ops : List Op) : TokensInv (runOps ops) := by
  suffices hgen : ∀ (l : List Op) (st : ServerState), TokensInv st → TokensInv (l.foldl applyOp st) by
    exact hgen ops initialState tokensInv_initial
  intro l
  induction l with
  | nil => intro st h; exact h
  | cons op l ih =>
    intro st h
    exact ih _ (tokensInv_applyOp st op h)

/-- Claim C4: no operation ever lowers a doctor's stored count; a join
that answers 200 increments that doctor's count by exactly 1; and after
any sequence of operations run sequentially from a fresh deployment, each
doctor's tokens are strictly increasing in issuance order (hence unique
per doctor). -/
theorem counter_monotone_and_tokens_strictly_increasing :
    (∀ (st : ServerState) (op : Op) (d : String),
        counterValue st d ≤ counterValue (applyOp st op) d)
    ∧ (∀ (st : ServerState) (d u dn : String) (now : Nat) (cOk aOk : Bool)
          (t : Nat) (ap : AppointmentRec),
        (joinQueue st d u dn now cOk aOk).1 = JoinResult.ok t ap →
        counterValue (joinQueue st d u dn now cOk aOk).2 d = counterValue st d + 1)
    ∧ (∀ (ops : List Op) (d : String),
        List.Pairwise (fun x y => x < y) (doctorTokens (runOps ops) d)) :=
  ⟨counterValue_applyOp_mono, counterValue_join_ok,
    fun ops d => (tokensInv_runOps ops d).2⟩

/-- Witness for C4: the successful join of the fresh deployment, which
answers token 1, raises doctor D1's stored count from 0 to 1. -/
theorem counter_monotone_and_tokens_strictly_increasing_witness :
    counterValue (joinQueue initialState "D1" "U1" "A" 0 true true).2 "D1"
      = counterValue initialState "D1" + 1 :=
  counter_monotone_and_tokens_strictly_increasing.2.1 initialState "D1" "U1" "A" 0 true true 1
    (mkWalkInAppointment "D1" "U1" "A" 0 1) (by decide)
